import Mathlib

/-!
Verification of the moderation / authentication core of the ImageShareVault
repository (an Express + SQLite image-sharing application).

Strings are modelled as lists of characters (`Str := List Char`), so that the
JavaScript string operations used by the source (`includes`, `split`, `trim`,
`toLowerCase`, template concatenation) and SQLite's byte-wise TEXT comparison
can be given exact executable definitions.  The SQLite database is modelled as
a record of row lists; each storage method of `DatabaseStorage`
(`server/storage.ts`) becomes a pure state-passing function, with a thrown
JavaScript `Error` modelled as `Except.error` carrying the error message.
A thrown error aborts the method before any later SQL statement runs, so an
`Except.error` result leaves the caller's database value untouched, exactly as
in the source.
-/

namespace ImageShareVault

/-- JavaScript strings (and SQLite TEXT values) are modelled as char lists. -/
abbrev Str := List Char

/-- ASCII lower-casing of one character.  This models both JavaScript
`String.prototype.toLowerCase` and SQLite `LOWER()` on the ASCII range, the
range on which the two agree and on which the source relies. -/
def lowerChar (c : Char) : Char :=
  if 'A' ≤ c ∧ c ≤ 'Z' then Char.ofNat (c.toNat + 32) else c

/-- ASCII lower-casing of a string (models `email.toLowerCase()` and
SQLite `LOWER(email)`). -/
def lowerStr (s : Str) : Str := s.map lowerChar

/-- Whitespace characters removed by JavaScript `String.prototype.trim`. -/
def isWsChar (c : Char) : Bool :=
  c = ' ' ∨ c = '\t' ∨ c = '\n' ∨ c = '\r'

/-- Models JavaScript `s.trim()`. -/
def trimStr (s : Str) : Str :=
  ((s.dropWhile isWsChar).reverse.dropWhile isWsChar).reverse

/-- Byte-wise lexicographic strict order on TEXT values, as used by SQLite
`ORDER BY` on the ISO-8601 timestamp columns. -/
def strLt : Str → Str → Bool
  | _, [] => false
  | [], _ :: _ => true
  | a :: as, b :: bs => if a < b then true else if a = b then strLt as bs else false

/-- Models JavaScript `s.split(sep)` for a one-character separator: the list
of (possibly empty) chunks between occurrences of `sep`. -/
def splitOnChar (sep : Char) : Str → List Str
  | [] => [[]]
  | c :: cs =>
    match splitOnChar sep cs with
    | [] => [[]]
    | h :: t => if c = sep then [] :: h :: t else (c :: h) :: t

/-- Lower-case hexadecimal digit for a nibble, as produced by Node
`Buffer.prototype.toString("hex")`. -/
def hexDigit : Nat → Char
  | 0 => '0' | 1 => '1' | 2 => '2' | 3 => '3' | 4 => '4' | 5 => '5' | 6 => '6' | 7 => '7'
  | 8 => '8' | 9 => '9' | 10 => 'a' | 11 => 'b' | 12 => 'c' | 13 => 'd' | 14 => 'e' | 15 => 'f'
  | _ => '0'

/-- Value of a hexadecimal character, or `none` for a non-hex character. -/
def hexVal? (c : Char) : Option Nat :=
  if '0' ≤ c ∧ c ≤ '9' then some (c.toNat - ('0').toNat)
  else if 'a' ≤ c ∧ c ≤ 'f' then some (c.toNat - ('a').toNat + 10)
  else if 'A' ≤ c ∧ c ≤ 'F' then some (c.toNat - ('A').toNat + 10)
  else none

/-- Models Node `buf.toString("hex")`: each byte becomes two lower-case hex
characters. -/
def hexEncode : List Nat → Str
  | [] => []
  | b :: bs => hexDigit (b / 16) :: hexDigit (b % 16) :: hexEncode bs

/-- Models Node `Buffer.from(s, "hex")`: hex pairs are decoded greedily and
decoding stops (without throwing) at the first invalid or incomplete pair. -/
def bufFromHex : Str → List Nat
  | c1 :: c2 :: rest =>
    match hexVal? c1, hexVal? c2 with
    | some hi, some lo => (16 * hi + lo) :: bufFromHex rest
    | _, _ => []
  | _ => []

/-- Models the JavaScript idiom `x || null` on an optional string: `undefined`
and the empty string both collapse to `null`. -/
def jsOrNull (o : Option Str) : Option Str :=
  match o with
  | some r => if r = [] then none else some r
  | none => none

/-- A row of the `users` table, in the shape produced by
`DatabaseStorage.transformUser` (`server/storage.ts`). -/
structure User where
  id : Nat
  name : Str
  email : Str
  password : Str
  isVerified : Bool
  verificationToken : Option Str
  isModerator : Bool
  isAdmin : Bool
  isBanned : Bool
  banReason : Option Str
  bannedBy : Option Nat
  bannedAt : Option Str
  bio : Option Str
  profilePicture : Option Str
  website : Option Str
  socialLinks : Option Str
  themePreference : Str
  createdAt : Str
deriving DecidableEq

/-- A row of the `images` table, in the shape produced by
`DatabaseStorage.transformImage`.  `status` is the raw TEXT column, holding
one of the strings `pending`, `approved`, `rejected`. -/
structure Image where
  id : Nat
  title : Str
  description : Option Str
  filename : Str
  status : Str
  userId : Nat
  reviewedBy : Option Nat
  rejectionReason : Option Str
  isPublic : Bool
  createdAt : Str
  updatedAt : Str
deriving DecidableEq

/-- A row of the `albums` table, in the shape produced by
`DatabaseStorage.transformAlbum`. -/
structure Album where
  id : Nat
  title : Str
  description : Option Str
  coverImageId : Option Nat
  userId : Nat
  isPublic : Bool
  createdAt : Str
  updatedAt : Str
deriving DecidableEq

/-- A row of the `album_images` junction table.  The surrogate autoincrement
primary key is omitted: no modelled operation reads it. -/
structure AlbumImage where
  albumId : Nat
  imageId : Nat
  addedAt : Str
deriving DecidableEq

/-- The SQLite database state: the four relational tables, each as a list of
rows in insertion order (SQLite scans and `.get()` return the first match in
this order for the queries the source issues). -/
structure DB where
  users : List User
  images : List Image
  albums : List Album
  albumImages : List AlbumImage
deriving DecidableEq

/-- The scrypt key-derivation function of Node `crypto`, abstracted: any
deterministic function from (password, salt string) to a 64-byte key, as
requested by `scryptAsync(password, salt, 64)` in `server/auth.ts`. -/
structure ScryptModel where
  fn : Str → Str → List Nat
  len_eq : ∀ p s, (fn p s).length = 64
  bytesLt : ∀ p s, ∀ b ∈ fn p s, b < 256

/-- Models `hashPassword` of `server/auth.ts`: the random salt is
`randomBytes(16).toString("hex")` and the stored form is
`hex(scrypt(password, salt, 64)) ++ "." ++ salt`.  The 16 drawn random bytes
are passed explicitly as `saltBytes`. -/
def hashPassword (M : ScryptModel) (password : Str) (saltBytes : List Nat) : Str :=
  let salt := hexEncode saltBytes
  hexEncode (M.fn password salt) ++ ('.' :: salt)

/-- Models `comparePasswords` of `server/auth.ts`.  The function's `try/catch`
returns `false` on any internal error; the only throwing call in the body is
`timingSafeEqual`, which throws exactly when the two buffers have different
lengths, so that case is mapped to `false` here.  `Buffer.from(_, "hex")`
never throws (see `bufFromHex`). -/
def comparePasswords (M : ScryptModel) (supplied stored : Str) : Bool :=
  if stored = [] then false
  else if !(stored.any (fun c => c == '.')) then false
  else
    let parts := splitOnChar '.' stored
    let storedHash := parts.headD []
    let salt := parts.getD 1 []
    if storedHash = [] then false
    else if salt = [] then false
    else
      let suppliedBuf := M.fn supplied salt
      let storedBuf := bufFromHex storedHash
      if suppliedBuf.length != storedBuf.length then false
      else suppliedBuf == storedBuf

/-- Models `DatabaseStorage.getUser`: `SELECT * FROM users WHERE id = ?`. -/
def getUser (db : DB) (id : Nat) : Option User :=
  db.users.find? (fun u => u.id == id)

/-- Models `DatabaseStorage.getUserByEmail`: the input is trimmed and lower-cased;
an empty normalized email is looked up exactly, otherwise the query is
`SELECT * FROM users WHERE LOWER(email) = ?`. -/
def getUserByEmail (db : DB) (email : Str) : Option User :=
  let normalizedEmail := lowerStr (trimStr email)
  if normalizedEmail = [] then
    db.users.find? (fun u => u.email == ([] : Str))
  else
    db.users.find? (fun u => lowerStr u.email == normalizedEmail)

/-- Models `DatabaseStorage.getImageById`: `SELECT * FROM images WHERE id = ?`. -/
def getImageById (db : DB) (id : Nat) : Option Image :=
  db.images.find? (fun i => i.id == id)

/-- Models `DatabaseStorage.getAlbumById`, restricted to the album row
(`SELECT * FROM albums WHERE id = ?`).  The source additionally joins the
approved member images onto the result; none of the modelled operations read
that images list, only `userId` and `coverImageId` of the row returned here. -/
def getAlbumById (db : DB) (id : Nat) : Option Album :=
  db.albums.find? (fun a => a.id == id)

/-- Models `DatabaseStorage.verifyUserByToken`: looks the user up by exact
`verification_token` match; if found, sets `is_verified = 1` and clears the
token, then re-fetches and returns the updated user.  Returns the (possibly
updated) user together with the resulting database. -/
def verifyUserByToken (db : DB) (token : Str) : Option User × DB :=
  match db.users.find? (fun u => u.verificationToken == some token) with
  | none => (none, db)
  | some u =>
    let db' : DB := { db with
      users := db.users.map (fun v =>
        if v.id == u.id then { v with isVerified := true, verificationToken := none } else v) }
    (getUser db' u.id, db')

/-- Models `DatabaseStorage.updateImageStatus`: unconditionally runs
`UPDATE images SET status, reviewed_by, rejection_reason, updated_at WHERE id = ?`
(there is no guard on the current status), then re-fetches the row and throws
`Image not found after update` if it is absent. -/
def updateImageStatus (db : DB) (imageId : Nat) (status : Str) (moderatorId : Nat)
    (rejectionReason : Option Str) (now : Str) : Except Str (DB × Image) :=
  let db' : DB := { db with
    images := db.images.map (fun i =>
      if i.id == imageId then
        { i with status := status, reviewedBy := some moderatorId,
                 rejectionReason := jsOrNull rejectionReason, updatedAt := now }
      else i) }
  match getImageById db' imageId with
  | none => Except.error ("Image not found after update").data
  | some img => Except.ok (db', img)

/-- Models `DatabaseStorage.updateImageVisibility`: throws if the image is absent or
not owned by the caller, otherwise updates `is_public` and `updated_at` and
returns the re-fetched row. -/
def updateImageVisibility (db : DB) (imageId userId : Nat) (isPublic : Bool)
    (now : Str) : Except Str (DB × Image) :=
  match getImageById db imageId with
  | none => Except.error ("Image not found").data
  | some image =>
    if image.userId != userId then
      Except.error ("You do not have permission to update this image").data
    else
      let db' : DB := { db with
        images := db.images.map (fun i =>
          if i.id == imageId then { i with isPublic := isPublic, updatedAt := now } else i) }
      match getImageById db' imageId with
      | none => Except.error ("Failed to retrieve updated image").data
      | some updated => Except.ok (db', updated)

/-- A request body accepted by `updateUserRoleSchema`
(`{ isModerator?: boolean, isAdmin?: boolean }`). -/
structure RoleBody where
  isModerator : Option Bool
  isAdmin : Option Bool
deriving DecidableEq

/-- A request body accepted by `banUserSchema`
(`{ isBanned: boolean, banReason?: string }`). -/
structure BanBody where
  isBanned : Bool
  banReason : Option Str
deriving DecidableEq

/-- Models `DatabaseStorage.updateUserRole`: throws if the target user is absent;
otherwise the SQL `CASE` expressions set each of `is_moderator` / `is_admin`
to the supplied boolean when it was provided and keep the stored value when it
was not; finally the updated user is re-fetched. -/
def updateUserRole (db : DB) (userId adminId : Nat) (data : RoleBody) :
    Except Str (DB × User) :=
  match getUser db userId with
  | none => Except.error ("User not found").data
  | some _ =>
    let db' : DB :=
      if data.isModerator.isSome || data.isAdmin.isSome then
        { db with users := db.users.map (fun u =>
            if u.id == userId then
              { u with isModerator := data.isModerator.getD u.isModerator,
                       isAdmin := data.isAdmin.getD u.isAdmin }
            else u) }
      else db
    match getUser db' userId with
    | none => Except.error ("Failed to retrieve updated user").data
    | some u' => Except.ok (db', u')

/-- Models `DatabaseStorage.banUser`: throws if the target user is absent; otherwise
sets `is_banned`, `ban_reason` (`data.banReason || null`), `banned_by` and
`banned_at` (the acting admin and the current time when banning, `NULL` when
unbanning), then re-fetches the updated user. -/
def banUser (db : DB) (userId adminId : Nat) (data : BanBody) (now : Str) :
    Except Str (DB × User) :=
  match getUser db userId with
  | none => Except.error ("User not found").data
  | some _ =>
    let db' : DB := { db with users := db.users.map (fun u =>
        if u.id == userId then
          { u with isBanned := data.isBanned,
                   banReason := jsOrNull data.banReason,
                   bannedBy := if data.isBanned then some adminId else none,
                   bannedAt := if data.isBanned then some now else none }
        else u) }
    match getUser db' userId with
    | none => Except.error ("Failed to retrieve updated user").data
    | some u' => Except.ok (db', u')

/-- An HTTP response of the admin routes: either an error status with its JSON
message, or the updated user serialized on success. -/
inductive RouteOut where
  | err (status : Nat) (message : Str)
  | okUser (u : User)
deriving DecidableEq

/-- Models `PATCH /api/admin/users/:userId/role` (`server/routes-admin.ts`),
including the `isAdmin` middleware.  `session` is the authenticated user id
carried by the request (`req.user`), `body` is `none` when
`updateUserRoleSchema.safeParse` fails.  The response is paired with the
database after the request; every error path answers before any mutation. -/
def updateUserRoleRoute (db : DB) (session : Option Nat) (targetId : Nat)
    (body : Option RoleBody) : RouteOut × DB :=
  match session with
  | none => (RouteOut.err 401 ("Authentication required").data, db)
  | some adminId =>
    match getUser db adminId with
    | none => (RouteOut.err 403 ("Admin privileges required").data, db)
    | some actor =>
      if !actor.isAdmin then (RouteOut.err 403 ("Admin privileges required").data, db)
      else
        match body with
        | none => (RouteOut.err 400 ("Invalid data").data, db)
        | some data =>
          if targetId == adminId then
            (RouteOut.err 400 ("Cannot modify your own role").data, db)
          else
            match updateUserRole db targetId adminId data with
            | Except.error _ => (RouteOut.err 500 ("Failed to update user role").data, db)
            | Except.ok (db', u') => (RouteOut.okUser u', db')

/-- Models `PATCH /api/admin/users/:userId/ban` (`server/routes-admin.ts`), including
the `isAdmin` middleware; `body` is `none` when `banUserSchema.safeParse`
fails. -/
def banUserRoute (db : DB) (session : Option Nat) (targetId : Nat)
    (body : Option BanBody) (now : Str) : RouteOut × DB :=
  match session with
  | none => (RouteOut.err 401 ("Authentication required").data, db)
  | some adminId =>
    match getUser db adminId with
    | none => (RouteOut.err 403 ("Admin privileges required").data, db)
    | some actor =>
      if !actor.isAdmin then (RouteOut.err 403 ("Admin privileges required").data, db)
      else
        match body with
        | none => (RouteOut.err 400 ("Invalid data").data, db)
        | some data =>
          if targetId == adminId then
            (RouteOut.err 400 ("Cannot ban yourself").data, db)
          else
            match banUser db targetId adminId data now with
            | Except.error _ => (RouteOut.err 500 ("Failed to update user ban status").data, db)
            | Except.ok (db', u') => (RouteOut.okUser u', db')

/-- Models `DatabaseStorage.addImageToAlbum`: album must exist and be owned by the
caller; the image must exist and be `approved`; adding an already-present
image is a no-op; otherwise a membership row is inserted and, when the album
has no cover image yet, the new image becomes the cover. -/
def addImageToAlbum (db : DB) (albumId userId imageId : Nat) (now : Str) :
    Except Str DB :=
  match getAlbumById db albumId with
  | none => Except.error ("Album not found").data
  | some album =>
    if album.userId != userId then
      Except.error ("You do not have permission to update this album").data
    else
      match getImageById db imageId with
      | none => Except.error ("Image not found").data
      | some image =>
        if image.status != ("approved").data then
          Except.error ("Only approved images can be added to albums").data
        else if db.albumImages.any (fun ai => ai.albumId == albumId && ai.imageId == imageId) then
          Except.ok db
        else
          let db1 : DB := { db with
            albumImages := db.albumImages ++ [{ albumId := albumId, imageId := imageId, addedAt := now }] }
          if album.coverImageId = none then
            Except.ok { db1 with albums := db1.albums.map (fun a =>
              if a.id == albumId && a.coverImageId == none then
                { a with coverImageId := some imageId, updatedAt := now }
              else a) }
          else Except.ok db1

/-- The `album_images` table after
`DELETE FROM album_images WHERE album_id = ? AND image_id = ?`. -/
def remainingAfterRemove (db : DB) (albumId imageId : Nat) : List AlbumImage :=
  db.albumImages.filter (fun ai => !(ai.albumId == albumId && ai.imageId == imageId))

/-- The membership rows of one album after the removal. -/
def remainingInAlbum (db : DB) (albumId imageId : Nat) : List AlbumImage :=
  (remainingAfterRemove db albumId imageId).filter (fun ai => ai.albumId == albumId)

/-- Models `SELECT image_id FROM album_images WHERE album_id = ?
ORDER BY added_at DESC LIMIT 1` applied to an already-filtered row list:
the row with the byte-wise greatest `added_at` (on equal keys the earlier row
is kept), or `none` when the list is empty. -/
def pickNewest (l : List AlbumImage) : Option AlbumImage :=
  l.foldl (fun acc x =>
    match acc with
    | none => some x
    | some y => if strLt y.addedAt x.addedAt then some x else some y) none

/-- The value written into `cover_image_id` when the cover was removed:
`firstImage ? firstImage.image_id : null` over the post-delete rows. -/
def newCover (db : DB) (albumId imageId : Nat) : Option Nat :=
  (pickNewest (remainingInAlbum db albumId imageId)).map (fun ai => ai.imageId)

/-- Models `DatabaseStorage.removeImageFromAlbum`: album must exist and be owned by
the caller; the membership row is deleted; when the removed image was the
album's cover, the cover is reassigned to the most recently added remaining
member (or cleared to `NULL` when none remains). -/
def removeImageFromAlbum (db : DB) (albumId userId imageId : Nat) (now : Str) :
    Except Str DB :=
  match getAlbumById db albumId with
  | none => Except.error ("Album not found").data
  | some album =>
    if album.userId != userId then
      Except.error ("You do not have permission to update this album").data
    else
      let db1 : DB := { db with albumImages := remainingAfterRemove db albumId imageId }
      if album.coverImageId == some imageId then
        Except.ok { db1 with albums := db1.albums.map (fun a =>
          if a.id == albumId then
            { a with coverImageId := newCover db albumId imageId, updatedAt := now }
          else a) }
      else Except.ok db1

/-- Outcome of the passport `LocalStrategy` verify callback of
`server/auth.ts`: `done(null, false, {message})` or `done(null, user)`. -/
inductive LoginOutcome where
  | failure (message : Str)
  | success (user : User)
deriving DecidableEq

/-- The failure message built for a banned user:
`Your account has been banned. ${user.banReason ? `Reason: ...` : ''}`. -/
def bannedMessage (u : User) : Str :=
  ("Your account has been banned. ").data ++
    (match u.banReason with
     | some r => if r = [] then [] else ("Reason: ").data ++ r
     | none => [])

/-- The `LocalStrategy` verify callback of `server/auth.ts`: looks the user up
by email, rejects a missing user, then a banned user (before any password
check), then a failed password comparison; otherwise succeeds. -/
def loginVerify (M : ScryptModel) (db : DB) (email password : Str) : LoginOutcome :=
  match getUserByEmail db email with
  | none => LoginOutcome.failure ("Incorrect email or password").data
  | some user =>
    if user.isBanned then LoginOutcome.failure (bannedMessage user)
    else if comparePasswords M password user.password then LoginOutcome.success user
    else LoginOutcome.failure ("Incorrect email or password").data

/-! ### Concrete fixtures used by witnesses and counterexamples -/

/-- A concrete key-derivation function satisfying the `ScryptModel`
interface, used for evaluating the operations on closed inputs. -/
def exScrypt : ScryptModel where
  fn := fun p s => List.replicate 64 ((p.length + s.length) % 256)
  len_eq := by intro p s; simp
  bytesLt := by
    intro p s b hb
    have hb' := List.eq_of_mem_replicate hb
    subst hb'
    exact Nat.mod_lt _ (by omega)

/-- A default user row; fixtures override the fields they care about. -/
def baseUser : User where
  id := 0
  name := ("u").data
  email := ("u@example.com").data
  password := ("x").data
  isVerified := true
  verificationToken := none
  isModerator := false
  isAdmin := false
  isBanned := false
  banReason := none
  bannedBy := none
  bannedAt := none
  bio := none
  profilePicture := none
  website := none
  socialLinks := none
  themePreference := ("default").data
  createdAt := ("2024-01-01 00:00:00").data

/-- A default image row; fixtures override the fields they care about. -/
def baseImage : Image where
  id := 0
  title := ("t").data
  description := none
  filename := ("f.png").data
  status := ("pending").data
  userId := 0
  reviewedBy := none
  rejectionReason := none
  isPublic := true
  createdAt := ("2024-01-01 00:00:00").data
  updatedAt := ("2024-01-01 00:00:00").data

/-- A default album row; fixtures override the fields they care about. -/
def baseAlbum : Album where
  id := 0
  title := ("a").data
  description := none
  coverImageId := none
  userId := 0
  isPublic := true
  createdAt := ("2024-01-01 00:00:00").data
  updatedAt := ("2024-01-01 00:00:00").data

/-- An already-approved image, for exercising `updateImageStatus`. -/
def c1Img : Image :=
  { baseImage with id := 1, status := ("approved").data, userId := 2, reviewedBy := some 3 }

/-- A database holding one already-approved image. -/
def c1Db : DB := { users := [], images := [c1Img], albums := [], albumImages := [] }

/-- 16 concrete salt bytes, standing for `randomBytes(16)`. -/
def c2SaltBytes : List Nat := [0, 1, 2, 3, 4, 5, 6, 7, 8, 9, 250, 251, 252, 253, 254, 255]

/-- A banned user with a stored ban reason. -/
def c4User : User :=
  { baseUser with id := 7, email := ("banned@example.com").data,
                  isBanned := true, banReason := some (("spam").data) }

/-- A database holding one banned user. -/
def c4Db : DB := { users := [c4User], images := [], albums := [], albumImages := [] }

/-- An album whose cover is image 10, with two member images. -/
def c5Album : Album := { baseAlbum with id := 1, userId := 2, coverImageId := some 10 }

/-- A database for the cover-reassignment scenario: image 10 (the cover) was
added before image 11. -/
def c5Db : DB :=
  { users := [], images := [], albums := [c5Album],
    albumImages :=
      [{ albumId := 1, imageId := 10, addedAt := ("2024-01-02 00:00:00").data },
       { albumId := 1, imageId := 11, addedAt := ("2024-01-03 00:00:00").data }] }

/-- An album for the add-image scenario. -/
def c6Album : Album := { baseAlbum with id := 1, userId := 2 }

/-- A still-pending image. -/
def c6Img : Image := { baseImage with id := 5, userId := 2, status := ("pending").data }

/-- A database holding one album and one pending image. -/
def c6Db : DB := { users := [], images := [c6Img], albums := [c6Album], albumImages := [] }

/-- A user registered with a mixed-case email. -/
def c7User : User := { baseUser with id := 3, email := ("Foo@Bar.com").data }

/-- A database holding the mixed-case-email user. -/
def c7Db : DB := { users := [c7User], images := [], albums := [], albumImages := [] }

/-- An unverified user holding a pending verification token. -/
def c8User : User :=
  { baseUser with id := 4, isVerified := false, verificationToken := some (("tok123").data) }

/-- A database holding the token-bearing user. -/
def c8Db : DB := { users := [c8User], images := [], albums := [], albumImages := [] }

/-- An admin user, the actor of the self-targeting admin requests. -/
def c9Admin : User :=
  { baseUser with id := 1, email := ("admin@example.com").data, isAdmin := true, isModerator := true }

/-- A database holding the admin. -/
def c9Db : DB := { users := [c9Admin], images := [], albums := [], albumImages := [] }

/-- An image owned by user 2, for the visibility-toggle scenario. -/
def c10Img : Image :=
  { baseImage with id := 6, userId := 2, status := ("approved").data, isPublic := true }

/-- A database holding the owned image. -/
def c10Db : DB := { users := [], images := [c10Img], albums := [], albumImages := [] }

/-! ### Generic list lemmas -/

/-- Finding by key commutes with mapping a key-preserving function over the
list. -/
theorem findMapComm {α : Type} (f : α → α) (key : α → Nat) (k : Nat)
    (hf : ∀ a, key (f a) = key a) (l : List α) :
    (l.map f).find? (fun a => key a == k) = (l.find? (fun a => key a == k)).map f := by
  induction l with
  | nil => rfl
  | cons a l ih =>
    cases h : (key a == k) with
    | true => simp [List.find?_cons, hf, h]
    | false => simp [List.find?_cons, hf, h, ih]

/-- If `x` is a member satisfying `p` and every member satisfying `p`
equals `x`, then `find? p` returns `x`. -/
theorem findUnique {α : Type} (p : α → Bool) (l : List α) (x : α)
    (hmem : x ∈ l) (hpx : p x = true)
    (huniq : ∀ y ∈ l, p y = true → y = x) : l.find? p = some x := by
  induction l with
  | nil => cases hmem
  | cons a l ih =>
    cases h : p a with
    | true =>
      have hax : a = x := huniq a (List.mem_cons_self a l) h
      simp [List.find?_cons, h, hax, hpx]
    | false =>
      have hax : x ≠ a := fun hx => by rw [hx] at hpx; rw [hpx] at h; cases h
      have hmem' : x ∈ l := by
        rcases List.mem_cons.mp hmem with h1 | h1
        · exact absurd h1 hax
        · exact h1
      simp only [List.find?_cons, h]
      exact ih hmem' (fun y hy hpy => huniq y (List.mem_cons_of_mem a hy) hpy)

/-! ### Hex encoding lemmas -/

/-- The function `hexDigit` never produces the separator character. -/
theorem hexDigit_ne_dot (n : Nat) : hexDigit n ≠ '.' := by
  unfold hexDigit
  split <;> decide

/-- The function `hexVal?` inverts `hexDigit` on nibbles. -/
theorem hexVal_hexDigit : ∀ n < 16, hexVal? (hexDigit n) = some n := by decide

/-- Every character of a hex encoding is distinct from the separator. -/
theorem hexEncode_ne_dot (bs : List Nat) : ∀ c ∈ hexEncode bs, c ≠ '.' := by
  induction bs with
  | nil => intro c hc; cases hc
  | cons b bs ih =>
    intro c hc
    rcases hc with _ | ⟨_, hc⟩
    · exact hexDigit_ne_dot _
    · rcases hc with _ | ⟨_, hc⟩
      · exact hexDigit_ne_dot _
      · exact ih c hc

/-- Length of a hex encoding. -/
theorem hexEncode_length (bs : List Nat) : (hexEncode bs).length = 2 * bs.length := by
  induction bs with
  | nil => rfl
  | cons b bs ih => simp [hexEncode, ih]; omega

/-- Decoding a hex encoding of genuine bytes recovers them. -/
theorem bufFromHex_hexEncode (bs : List Nat) (h : ∀ b ∈ bs, b < 256) :
    bufFromHex (hexEncode bs) = bs := by
  induction bs with
  | nil => rfl
  | cons b bs ih =>
    have hb : b < 256 := h b (List.mem_cons_self b bs)
    have hhi : b / 16 < 16 := Nat.div_lt_of_lt_mul (by omega)
    have hlo : b % 16 < 16 := Nat.mod_lt _ (by omega)
    have e1 := hexVal_hexDigit _ hhi
    have e2 := hexVal_hexDigit _ hlo
    simp [hexEncode, bufFromHex, e1, e2, ih (fun x hx => h x (List.mem_cons_of_mem b hx))]
    omega

/-! ### `splitOnChar` lemmas -/

/-- The function `splitOnChar` never returns the empty list. -/
theorem splitOnChar_ne_nil (sep : Char) (l : Str) : splitOnChar sep l ≠ [] := by
  cases l with
  | nil => simp [splitOnChar]
  | cons c cs =>
    simp only [splitOnChar]
    cases splitOnChar sep cs with
    | nil => simp
    | cons h t =>
      by_cases hc : c = sep <;> simp [hc]

/-- Splitting a string free of the separator yields the single chunk. -/
theorem splitOnChar_no_sep (sep : Char) (l : Str) (h : ∀ c ∈ l, c ≠ sep) :
    splitOnChar sep l = [l] := by
  induction l with
  | nil => rfl
  | cons c cs ih =>
    have hc : c ≠ sep := h c (List.mem_cons_self c cs)
    have ih' := ih (fun x hx => h x (List.mem_cons_of_mem c hx))
    simp [splitOnChar, ih', hc]

/-- Splitting around the first separator occurrence peels off the prefix. -/
theorem splitOnChar_append (sep : Char) (a b : Str) (ha : ∀ c ∈ a, c ≠ sep) :
    splitOnChar sep (a ++ sep :: b) = a :: splitOnChar sep b := by
  induction a with
  | nil =>
    simp only [List.nil_append, splitOnChar]
    cases hs : splitOnChar sep b with
    | nil => exact absurd hs (splitOnChar_ne_nil sep b)
    | cons h t => simp
  | cons c cs ih =>
    have hc : c ≠ sep := ha c (List.mem_cons_self c cs)
    have ih' := ih (fun x hx => ha x (List.mem_cons_of_mem c hx))
    simp only [List.cons_append, splitOnChar, List.append_eq]
    rw [ih']
    simp [hc]

/-! ### Lexicographic order lemmas -/

/-- The order `strLt` is irreflexive. -/
theorem strLt_irrefl (s : Str) : strLt s s = false := by
  induction s with
  | nil => rfl
  | cons c cs ih => simp [strLt, ih, lt_irrefl]

/-- The order `strLt` is transitive. -/
theorem strLt_trans {a b c : Str} (h1 : strLt a b = true) (h2 : strLt b c = true) :
    strLt a c = true := by
  induction a generalizing b c with
  | nil =>
    cases c with
    | nil => cases b <;> simp [strLt] at h1 h2
    | cons x xs => simp [strLt]
  | cons x xs ih =>
    cases b with
    | nil => simp [strLt] at h1
    | cons y ys =>
      cases c with
      | nil => simp [strLt] at h2
      | cons z zs =>
        simp only [strLt] at h1 h2 ⊢
        by_cases hxy : x < y
        · by_cases hyz : y < z
          · simp [lt_trans hxy hyz]
          · by_cases hyzE : y = z
            · subst hyzE; simp [hxy]
            · simp [hyz, hyzE] at h2
        · by_cases hxyE : x = y
          · subst hxyE
            simp only [lt_irrefl, if_false, if_pos rfl] at h1
            by_cases hxz : x < z
            · simp [hxz]
            · by_cases hxzE : x = z
              · subst hxzE
                simp only [lt_irrefl, if_false, if_pos rfl] at h2 ⊢
                exact ih h1 h2
              · simp [hxz, hxzE] at h2
          · simp [hxy, hxyE] at h1

/-- The order `strLt` satisfies trichotomy. -/
theorem strLt_total (a b : Str) : strLt a b = true ∨ a = b ∨ strLt b a = true := by
  induction a generalizing b with
  | nil =>
    cases b with
    | nil => exact Or.inr (Or.inl rfl)
    | cons y ys => exact Or.inl (by simp [strLt])
  | cons x xs ih =>
    cases b with
    | nil => exact Or.inr (Or.inr (by simp [strLt]))
    | cons y ys =>
      rcases lt_trichotomy x y with h | h | h
      · exact Or.inl (by simp [strLt, h])
      · subst h
        rcases ih ys with h2 | h2 | h2
        · exact Or.inl (by simp [strLt, lt_irrefl, h2])
        · exact Or.inr (Or.inl (by rw [h2]))
        · exact Or.inr (Or.inr (by simp [strLt, lt_irrefl, h2]))
      · exact Or.inr (Or.inr (by simp [strLt, h]))

/-- From `¬(m < x)` and `¬(m' < m)` conclude `¬(m' < x)`. -/
theorem strLt_false_step {m' m x : Str}
    (h1 : strLt m x = false) (h2 : strLt m' m = false) : strLt m' x = false := by
  by_contra h
  have h' : strLt m' x = true := by
    cases hx : strLt m' x with
    | true => rfl
    | false => exact absurd hx h
  rcases strLt_total x m with g | g | g
  · have := strLt_trans h' g
    rw [this] at h2; cases h2
  · subst g; rw [h'] at h2; cases h2
  · rw [g] at h1; cases h1

/-- From `m < x` and `¬(m' < x)` conclude `¬(m' < m)`. -/
theorem strLt_false_of_lt {m' m x : Str}
    (h1 : strLt m x = true) (h2 : strLt m' x = false) : strLt m' m = false := by
  cases hm : strLt m' m with
  | false => rfl
  | true =>
    have := strLt_trans hm h1
    rw [this] at h2; cases h2

/-- Fold invariant for `pickNewest`: starting from `some m`, the fold yields
an element of `{m} ∪ l` that no processed element strictly exceeds. -/
theorem pickNewest_go (l : List AlbumImage) (m : AlbumImage) :
    ∃ m', (l.foldl (fun acc x =>
        match acc with
        | none => some x
        | some y => if strLt y.addedAt x.addedAt then some x else some y) (some m)) = some m' ∧
      (m' = m ∨ m' ∈ l) ∧ strLt m'.addedAt m.addedAt = false ∧
      (∀ x ∈ l, strLt m'.addedAt x.addedAt = false) := by
  induction l generalizing m with
  | nil => exact ⟨m, rfl, Or.inl rfl, strLt_irrefl _, fun x hx => absurd hx (List.not_mem_nil x)⟩
  | cons a l ih =>
    simp only [List.foldl_cons]
    cases hlt : strLt m.addedAt a.addedAt with
    | true =>
      simp only [hlt, if_true]
      obtain ⟨m', hfold, hmem, hstep, hall⟩ := ih a
      refine ⟨m', hfold, ?_, ?_, ?_⟩
      · rcases hmem with rfl | h
        · exact Or.inr (List.mem_cons_self _ l)
        · exact Or.inr (List.mem_cons_of_mem a h)
      · exact strLt_false_of_lt hlt hstep
      · intro x hx
        rcases List.mem_cons.mp hx with h | h
        · exact h ▸ hstep
        · exact hall x h
    | false =>
      simp only [hlt, Bool.false_eq_true, if_false]
      obtain ⟨m', hfold, hmem, hstep, hall⟩ := ih m
      refine ⟨m', hfold, ?_, hstep, ?_⟩
      · rcases hmem with rfl | h
        · exact Or.inl rfl
        · exact Or.inr (List.mem_cons_of_mem a h)
      · intro x hx
        rcases List.mem_cons.mp hx with h | h
        · exact h ▸ strLt_false_step hlt hstep
        · exact hall x h

/-- Specification of `pickNewest` on a nonempty list: it returns a member row
whose `added_at` no other row strictly exceeds. -/
theorem pickNewest_spec (l : List AlbumImage) (hl : l ≠ []) :
    ∃ m, pickNewest l = some m ∧ m ∈ l ∧
      ∀ x ∈ l, strLt m.addedAt x.addedAt = false := by
  cases l with
  | nil => exact absurd rfl hl
  | cons a l =>
    unfold pickNewest
    simp only [List.foldl_cons]
    obtain ⟨m', hfold, hmem, hstep, hall⟩ := pickNewest_go l a
    refine ⟨m', hfold, ?_, ?_⟩
    · rcases hmem with h | h
      · exact h ▸ List.mem_cons_self a l
      · exact List.mem_cons_of_mem a h
    · intro x hx
      rcases List.mem_cons.mp hx with h | h
      · exact h ▸ hstep
      · exact hall x h

/-! ### Claim C2 -/

/-- C2: for every password `p` and every 16-byte salt the hasher may draw,
verifying `p` against the stored form produced by hashing `p` returns `true`:
`comparePasswords(p, hashPassword(p)) == true`, for any scrypt instance. -/
theorem claim_C2_verify_roundtrip (M : ScryptModel) (p : Str) (saltBytes : List Nat)
    (hlen : saltBytes.length = 16) :
    comparePasswords M p (hashPassword M p saltBytes) = true := by
  have hsaltnd : ∀ c ∈ hexEncode saltBytes, c ≠ '.' := hexEncode_ne_dot saltBytes
  have hbufnd : ∀ c ∈ hexEncode (M.fn p (hexEncode saltBytes)), c ≠ '.' :=
    hexEncode_ne_dot _
  have hsplit : splitOnChar '.'
      (hexEncode (M.fn p (hexEncode saltBytes)) ++ '.' :: hexEncode saltBytes)
      = [hexEncode (M.fn p (hexEncode saltBytes)), hexEncode saltBytes] := by
    rw [splitOnChar_append _ _ _ hbufnd, splitOnChar_no_sep _ _ hsaltnd]
  have hhlen : (hexEncode (M.fn p (hexEncode saltBytes))).length = 128 := by
    rw [hexEncode_length, M.len_eq]
  have hslen : (hexEncode saltBytes).length = 32 := by
    rw [hexEncode_length, hlen]
  have hhne : hexEncode (M.fn p (hexEncode saltBytes)) ≠ [] := by
    intro h; rw [h] at hhlen; simp at hhlen
  have hsne : hexEncode saltBytes ≠ [] := by
    intro h; rw [h] at hslen; simp at hslen
  have hround : bufFromHex (hexEncode (M.fn p (hexEncode saltBytes)))
      = M.fn p (hexEncode saltBytes) :=
    bufFromHex_hexEncode _ (M.bytesLt p _)
  have hany : ((hexEncode (M.fn p (hexEncode saltBytes)) ++ '.' :: hexEncode saltBytes).any
      (fun c => c == '.')) = true := by
    apply List.any_eq_true.mpr
    exact ⟨'.', by simp, by simp⟩
  simp only [hashPassword, comparePasswords]
  rw [if_neg (by simp)]
  rw [if_neg (by simp [hany])]
  rw [hsplit]
  have hgd : ([hexEncode (M.fn p (hexEncode saltBytes)), hexEncode saltBytes] : List Str).getD 1 []
      = hexEncode saltBytes := rfl
  simp only [List.headD_cons, hgd]
  rw [if_neg hhne, if_neg hsne, hround]
  simp

/-- C2 witness: a concrete password and salt checked through the theorem. -/
theorem claim_C2_witness :
    c2SaltBytes.length = 16 ∧
    comparePasswords exScrypt (("pw").data)
      (hashPassword exScrypt (("pw").data) c2SaltBytes) = true :=
  ⟨by decide, claim_C2_verify_roundtrip exScrypt (("pw").data) c2SaltBytes (by decide)⟩

/-! ### Claim C3 -/

/-- C3: `comparePasswords` is total — the Lean model returns a `Bool` for
every input because every throwing site of the source body sits inside the
`try/catch` that returns `false` — and every malformed stored form (empty
string, no `.` separator, missing hash or salt component, or a stored hash
whose hex decoding does not yield a buffer of the derived key's length, which
is exactly the case in which `timingSafeEqual` would throw internally)
makes it return `false`. -/
theorem claim_C3_verify_malformed_false (M : ScryptModel) (supplied stored : Str)
    (h : stored = [] ∨ (stored.any (fun c => c == '.')) = false ∨
         (splitOnChar '.' stored).headD [] = [] ∨
         (splitOnChar '.' stored).getD 1 [] = [] ∨
         (M.fn supplied ((splitOnChar '.' stored).getD 1 [])).length ≠
           (bufFromHex ((splitOnChar '.' stored).headD [])).length) :
    comparePasswords M supplied stored = false := by
  simp only [comparePasswords]
  by_cases h1 : stored = []
  · rw [if_pos h1]
  · rw [if_neg h1]
    cases h2 : stored.any (fun c => c == '.') with
    | false => rw [if_pos (by simp [h2])]
    | true =>
      rw [if_neg (by simp [h2])]
      by_cases h3 : (splitOnChar '.' stored).headD [] = []
      · rw [if_pos h3]
      · rw [if_neg h3]
        by_cases h4 : (splitOnChar '.' stored).getD 1 [] = []
        · rw [if_pos h4]
        · rw [if_neg h4]
          have h5 : (M.fn supplied ((splitOnChar '.' stored).getD 1 [])).length ≠
              (bufFromHex ((splitOnChar '.' stored).headD [])).length := by
            rcases h with h | h | h | h | h
            · exact absurd h h1
            · rw [h] at h2; cases h2
            · exact absurd h h3
            · exact absurd h h4
            · exact h
          rw [if_pos (bne_iff_ne.mpr h5)]

/-- C3 witness: a stored form without the separator is rejected. -/
theorem claim_C3_witness :
    (("nodot").data = ([] : Str) ∨
       ((("nodot").data).any (fun c => c == '.')) = false ∨
       (splitOnChar '.' (("nodot").data)).headD [] = [] ∨
       (splitOnChar '.' (("nodot").data)).getD 1 [] = [] ∨
       (exScrypt.fn (("pw").data) ((splitOnChar '.' (("nodot").data)).getD 1 [])).length ≠
         (bufFromHex ((splitOnChar '.' (("nodot").data)).headD [])).length) ∧
    comparePasswords exScrypt (("pw").data) (("nodot").data) = false :=
  ⟨by decide, claim_C3_verify_malformed_false exScrypt (("pw").data) (("nodot").data) (by decide)⟩

/-! ### Claim C4 -/

/-- The banned-login failure text never coincides with the generic
wrong-credentials text. -/
theorem banned_prefix_ne (t : Str) :
    ("Your account has been banned. ").data ++ t ≠ ("Incorrect email or password").data := by
  intro h
  have h0 : ("Your account has been banned. ").data
      = 'Y' :: ("our account has been banned. ").data := by decide
  have h1 : ("Incorrect email or password").data
      = 'I' :: ("ncorrect email or password").data := by decide
  rw [h0, List.cons_append, h1] at h
  injection h with h2 h3
  exact absurd h2 (by decide)

/-- C4: login by a banned user's email fails for every supplied password —
the ban check precedes password verification — with a ban-specific message
(distinct from the generic failure text) that surfaces the stored ban reason
when one is present. -/
theorem claim_C4_banned_login_fails (M : ScryptModel) (db : DB) (email password : Str)
    (u : User) (hfind : getUserByEmail db email = some u) (hban : u.isBanned = true) :
    loginVerify M db email password = LoginOutcome.failure (bannedMessage u) ∧
    bannedMessage u ≠ ("Incorrect email or password").data ∧
    (∀ r, u.banReason = some r → r ≠ [] →
      bannedMessage u = ("Your account has been banned. Reason: ").data ++ r) := by
  refine ⟨?_, ?_, ?_⟩
  · simp [loginVerify, hfind, hban]
  · unfold bannedMessage
    exact banned_prefix_ne _
  · intro r hr hrne
    have hpre : ("Your account has been banned. ").data ++ (("Reason: ").data ++ r)
        = ("Your account has been banned. Reason: ").data ++ r := by
      rw [← List.append_assoc]
      congr 1
    simp [bannedMessage, hr, hrne, hpre]

/-- C4 witness: the banned fixture user cannot log in with any password. -/
theorem claim_C4_witness :
    getUserByEmail c4Db (("banned@example.com").data) = some c4User ∧
    c4User.isBanned = true ∧
    loginVerify exScrypt c4Db (("banned@example.com").data) (("x").data)
      = LoginOutcome.failure (bannedMessage c4User) ∧
    bannedMessage c4User = ("Your account has been banned. Reason: spam").data := by
  have h := claim_C4_banned_login_fails exScrypt c4Db (("banned@example.com").data)
    (("x").data) c4User (by decide) (by decide)
  refine ⟨by decide, by decide, h.1, ?_⟩
  have h3 := h.2.2 (("spam").data) (by decide) (by decide)
  rw [h3]
  decide

/-! ### Claim C1 -/

/-- The image row produced by re-deciding the already-approved fixture. -/
def c1Img2 : Image :=
  { c1Img with status := ("rejected").data, reviewedBy := some 9,
               rejectionReason := some (("bad").data),
               updatedAt := ("2024-02-02 00:00:00").data }

/-- C1 counterexample: `updateImageStatus` on an image whose status is
already `approved` does not fail — it succeeds and overwrites `status`,
`reviewedBy`, `rejectionReason` and `updatedAt`, so the claimed `NotPending`
failure does not occur. -/
theorem claim_C1_counterexample :
    c1Img.status = ("approved").data ∧
    updateImageStatus c1Db 1 (("rejected").data) 9 (some (("bad").data))
        (("2024-02-02 00:00:00").data)
      = Except.ok ({ c1Db with images := [c1Img2] }, c1Img2) := by
  exact ⟨by decide, rfl⟩

/-- C1 (amended): a further call to `updateImageStatus` on an image whose
status is already `approved` or `rejected` does not fail with any
`NotPending` condition — the source has no such guard — but succeeds and
silently overwrites `status`, `reviewedBy`, `rejectionReason` and
`updatedAt`. -/
theorem claim_C1_amended_overwrite (db : DB) (imageId : Nat) (st : Str) (mid : Nat)
    (reason : Option Str) (now : Str) (img : Image)
    (h : getImageById db imageId = some img)
    (hdec : img.status = ("approved").data ∨ img.status = ("rejected").data) :
    ∃ db', updateImageStatus db imageId st mid reason now =
      Except.ok (db', { img with status := st, reviewedBy := some mid,
                                 rejectionReason := jsOrNull reason, updatedAt := now }) := by
  have hf : ∀ a : Image, Image.id (if a.id == imageId then
      { a with status := st, reviewedBy := some mid,
               rejectionReason := jsOrNull reason, updatedAt := now } else a) = Image.id a := by
    intro a; split <;> rfl
  have hcomm := findMapComm (fun i : Image => if i.id == imageId then
      { i with status := st, reviewedBy := some mid,
               rejectionReason := jsOrNull reason, updatedAt := now } else i)
    Image.id imageId hf db.images
  have h' : db.images.find? (fun i => i.id == imageId) = some img := h
  have hpred := List.find?_some h'
  refine ⟨{ db with images := db.images.map (fun i => if i.id == imageId then
      { i with status := st, reviewedBy := some mid,
               rejectionReason := jsOrNull reason, updatedAt := now } else i) }, ?_⟩
  simp only [updateImageStatus, getImageById]
  rw [hcomm, h']
  simp only [Option.map_some']
  rw [if_pos hpred]

/-- C1 witness for the amended theorem: the fixture image is already
approved and the second decision overwrites it. -/
theorem claim_C1_witness :
    getImageById c1Db 1 = some c1Img ∧
    (c1Img.status = ("approved").data ∨ c1Img.status = ("rejected").data) ∧
    ∃ db', updateImageStatus c1Db 1 (("rejected").data) 9 (some (("bad").data))
        (("2024-02-02 00:00:00").data)
      = Except.ok (db', { c1Img with status := ("rejected").data, reviewedBy := some 9,
                                     rejectionReason := jsOrNull (some (("bad").data)),
                                     updatedAt := ("2024-02-02 00:00:00").data }) :=
  ⟨by decide, by decide,
    claim_C1_amended_overwrite c1Db 1 (("rejected").data) 9 (some (("bad").data))
      (("2024-02-02 00:00:00").data) c1Img (by decide) (by decide)⟩

/-! ### Claim C10 -/

/-- C10: `updateImageVisibility` is owner-gated and frame-preserving: a
caller other than the owner gets the permission error (thrown before any
mutation, so the database is untouched), and a successful call changes only
`isPublic` and `updatedAt` of the target image — every other field, every
other image, and the other tables are unchanged. -/
theorem claim_C10_visibility_owner_frame (db : DB) (imageId userId : Nat) (p : Bool)
    (now : Str) (img : Image) (h : getImageById db imageId = some img) :
    (img.userId ≠ userId →
      updateImageVisibility db imageId userId p now =
        Except.error ("You do not have permission to update this image").data) ∧
    (img.userId = userId →
      ∃ db', updateImageVisibility db imageId userId p now =
          Except.ok (db', { img with isPublic := p, updatedAt := now }) ∧
        db'.users = db.users ∧ db'.albums = db.albums ∧ db'.albumImages = db.albumImages ∧
        (∀ j, j ≠ imageId → getImageById db' j = getImageById db j)) := by
  have h' : db.images.find? (fun i => i.id == imageId) = some img := h
  have hpred := List.find?_some h'
  have hf : ∀ a : Image, Image.id (if a.id == imageId then
      { a with isPublic := p, updatedAt := now } else a) = Image.id a := by
    intro a; split <;> rfl
  constructor
  · intro hne
    simp only [updateImageVisibility, h]
    rw [if_pos (bne_iff_ne.mpr hne)]
  · intro heq
    refine ⟨{ db with images := db.images.map (fun i => if i.id == imageId then
        { i with isPublic := p, updatedAt := now } else i) }, ?_, rfl, rfl, rfl, ?_⟩
    · have hcomm := findMapComm (fun i : Image => if i.id == imageId then
          { i with isPublic := p, updatedAt := now } else i) Image.id imageId hf db.images
      simp only [updateImageVisibility, h]
      rw [if_neg (by simp [heq])]
      simp only [getImageById]
      rw [hcomm, h']
      simp only [Option.map_some']
      rw [if_pos hpred]
    · intro j hj
      have hcommj := findMapComm (fun i : Image => if i.id == imageId then
          { i with isPublic := p, updatedAt := now } else i) Image.id j hf db.images
      simp only [getImageById]
      rw [hcommj]
      cases hfind : db.images.find? (fun i => i.id == j) with
      | none => rfl
      | some x =>
        have hx := List.find?_some hfind
        have hxid : x.id = j := by simpa using hx
        have hxne : (x.id == imageId) = false := by
          simp [hxid]
          exact hj
        simp [hxne]
        exact fun hxe => absurd (hxid ▸ hxe) hj

/-- C10 witness: a non-owner caller is rejected on the fixture image (and
the owner branch of the theorem is also instantiated). -/
theorem claim_C10_witness :
    getImageById c10Db 6 = some c10Img ∧
    ((c10Img.userId ≠ 9 →
        updateImageVisibility c10Db 6 9 false (("2024-03-01 00:00:00").data) =
          Except.error ("You do not have permission to update this image").data) ∧
     (c10Img.userId = 9 →
        ∃ db', updateImageVisibility c10Db 6 9 false (("2024-03-01 00:00:00").data) =
            Except.ok (db', { c10Img with isPublic := false,
                                          updatedAt := ("2024-03-01 00:00:00").data }) ∧
          db'.users = c10Db.users ∧ db'.albums = c10Db.albums ∧
          db'.albumImages = c10Db.albumImages ∧
          (∀ j, j ≠ 6 → getImageById db' j = getImageById c10Db j))) :=
  ⟨by decide,
    claim_C10_visibility_owner_frame c10Db 6 9 false (("2024-03-01 00:00:00").data)
      c10Img (by decide)⟩

/-! ### Claim C6 -/

/-- C6: `addImageToAlbum` refuses a `pending` or `rejected` image with the
only-approved error.  The throw happens before the membership `INSERT`, so no
membership row is added (an `Except.error` result carries no state change). -/
theorem claim_C6_album_only_approved (db : DB) (albumId userId imageId : Nat) (now : Str)
    (album : Album) (image : Image)
    (ha : getAlbumById db albumId = some album) (hown : album.userId = userId)
    (hi : getImageById db imageId = some image)
    (hst : image.status = ("pending").data ∨ image.status = ("rejected").data) :
    addImageToAlbum db albumId userId imageId now =
      Except.error ("Only approved images can be added to albums").data := by
  have hne : image.status ≠ ("approved").data := by
    rcases hst with h | h <;> rw [h] <;> decide
  simp only [addImageToAlbum, ha, hi]
  rw [if_neg (by simp [hown])]
  rw [if_pos (bne_iff_ne.mpr hne)]

/-- C6 witness: adding the pending fixture image to the fixture album fails. -/
theorem claim_C6_witness :
    getAlbumById c6Db 1 = some c6Album ∧ c6Album.userId = 2 ∧
    getImageById c6Db 5 = some c6Img ∧
    (c6Img.status = ("pending").data ∨ c6Img.status = ("rejected").data) ∧
    addImageToAlbum c6Db 1 2 5 (("2024-04-01 00:00:00").data) =
      Except.error ("Only approved images can be added to albums").data :=
  ⟨by decide, by decide, by decide, by decide,
    claim_C6_album_only_approved c6Db 1 2 5 (("2024-04-01 00:00:00").data) c6Album c6Img
      (by decide) (by decide) (by decide) (by decide)⟩

/-! ### Claim C5 -/

/-- C5: removing the album's current cover image reassigns the cover to the
most recently added remaining member row of that album (a remaining member
whose `added_at` no other remaining member strictly exceeds), and clears it
to `NULL` when the album has no remaining members. -/
theorem claim_C5_cover_reassign (db : DB) (albumId userId imageId : Nat) (now : Str)
    (album : Album)
    (ha : getAlbumById db albumId = some album) (hown : album.userId = userId)
    (hcov : album.coverImageId = some imageId) :
    ∃ db', removeImageFromAlbum db albumId userId imageId now = Except.ok db' ∧
      (remainingInAlbum db albumId imageId = [] →
        (getAlbumById db' albumId).map Album.coverImageId = some none) ∧
      (remainingInAlbum db albumId imageId ≠ [] →
        ∃ m, m ∈ remainingInAlbum db albumId imageId ∧
          (∀ x ∈ remainingInAlbum db albumId imageId, strLt m.addedAt x.addedAt = false) ∧
          (getAlbumById db' albumId).map Album.coverImageId = some (some m.imageId)) := by
  have ha' : db.albums.find? (fun a => a.id == albumId) = some album := ha
  have hpred := List.find?_some ha'
  have hf : ∀ a : Album, Album.id (if a.id == albumId then
      { a with coverImageId := newCover db albumId imageId, updatedAt := now } else a)
      = Album.id a := by
    intro a; split <;> rfl
  have hcomm := findMapComm (fun a : Album => if a.id == albumId then
      { a with coverImageId := newCover db albumId imageId, updatedAt := now } else a)
    Album.id albumId hf db.albums
  have hget :
      getAlbumById
        { db with
          albumImages := remainingAfterRemove db albumId imageId
          albums := db.albums.map (fun a => if a.id == albumId then
            { a with coverImageId := newCover db albumId imageId, updatedAt := now } else a) }
        albumId
      = some { album with coverImageId := newCover db albumId imageId, updatedAt := now } := by
    simp only [getAlbumById]
    rw [hcomm, ha']
    simp only [Option.map_some']
    rw [if_pos hpred]
  refine ⟨
    { db with
      albumImages := remainingAfterRemove db albumId imageId
      albums := db.albums.map (fun a => if a.id == albumId then
        { a with coverImageId := newCover db albumId imageId, updatedAt := now } else a) },
    ?_, ?_, ?_⟩
  · simp only [removeImageFromAlbum, ha]
    rw [if_neg (by simp [hown])]
    rw [if_pos (by simp [hcov])]
  · intro hrem
    rw [hget]
    simp only [Option.map_some', newCover, hrem]
    rfl
  · intro hrem
    obtain ⟨m, hm, hmem, hmax⟩ := pickNewest_spec _ hrem
    refine ⟨m, hmem, hmax, ?_⟩
    rw [hget]
    simp only [Option.map_some', newCover, hm]

/-- C5 witness: removing cover image 10 from the fixture album reassigns the
cover to the most recently added remaining member (image 11). -/
theorem claim_C5_witness :
    getAlbumById c5Db 1 = some c5Album ∧ c5Album.userId = 2 ∧
    c5Album.coverImageId = some 10 ∧
    (∃ db', removeImageFromAlbum c5Db 1 2 10 (("2024-04-02 00:00:00").data) = Except.ok db' ∧
      (remainingInAlbum c5Db 1 10 = [] →
        (getAlbumById db' 1).map Album.coverImageId = some none) ∧
      (remainingInAlbum c5Db 1 10 ≠ [] →
        ∃ m, m ∈ remainingInAlbum c5Db 1 10 ∧
          (∀ x ∈ remainingInAlbum c5Db 1 10, strLt m.addedAt x.addedAt = false) ∧
          (getAlbumById db' 1).map Album.coverImageId = some (some m.imageId))) :=
  ⟨by decide, by decide, by decide,
    claim_C5_cover_reassign c5Db 1 2 10 (("2024-04-02 00:00:00").data) c5Album
      (by decide) (by decide) (by decide)⟩

/-! ### Claim C7 -/

/-- C7: email lookup is case-insensitive.  For a stored user and a lookup
string that is a casing variant of that user's email (after the trim the
source performs, it lower-cases to the same string), the lookup returns that
user, provided the normalized email is nonempty (the schema initialization
deletes empty-email rows) and emails are case-insensitively unique (the
spec's uniqueness invariant, enforced by registration's duplicate check). -/
theorem claim_C7_email_case_insensitive (db : DB) (email : Str) (u : User)
    (hmem : u ∈ db.users)
    (hvar : lowerStr (trimStr email) = lowerStr u.email)
    (hne : lowerStr (trimStr email) ≠ [])
    (huniq : ∀ v ∈ db.users, lowerStr v.email = lowerStr u.email → v = u) :
    getUserByEmail db email = some u := by
  simp only [getUserByEmail]
  rw [if_neg hne]
  apply findUnique _ _ _ hmem
  · simp [hvar]
  · intro y hy hpy
    apply huniq y hy
    have hyv : lowerStr y.email = lowerStr (trimStr email) := by simpa using hpy
    rw [hyv, hvar]

/-- C7 witness: user registered as `Foo@Bar.com` is found by
`foo@bar.com`. -/
theorem claim_C7_witness :
    c7User ∈ c7Db.users ∧
    lowerStr (trimStr (("foo@bar.com").data)) = lowerStr c7User.email ∧
    lowerStr (trimStr (("foo@bar.com").data)) ≠ [] ∧
    (∀ v ∈ c7Db.users, lowerStr v.email = lowerStr c7User.email → v = c7User) ∧
    getUserByEmail c7Db (("foo@bar.com").data) = some c7User :=
  ⟨by decide, by decide, by decide, by decide,
    claim_C7_email_case_insensitive c7Db (("foo@bar.com").data) c7User
      (by decide) (by decide) (by decide) (by decide)⟩

/-! ### Claim C8 -/

/-- C8: verification tokens are single-use.  Under the database invariants
that user ids are unique (primary key) and at most one user holds a given
token, a successful `verifyUserByToken` returns the user with the verified
flag set and the token cleared, and running `verifyUserByToken` again with
the same token on the resulting database finds no user (the `InvalidToken`
outcome) and changes nothing. -/
theorem claim_C8_token_single_use (db : DB) (token : Str) (u' : User) (db' : DB)
    (hids : (db.users.map User.id).Nodup)
    (huniq : ∀ v ∈ db.users, ∀ w ∈ db.users,
      v.verificationToken = some token → w.verificationToken = some token → v = w)
    (h : verifyUserByToken db token = (some u', db')) :
    u'.isVerified = true ∧ u'.verificationToken = none ∧
    verifyUserByToken db' token = (none, db') := by
  cases hfind : db.users.find? (fun v => v.verificationToken == some token) with
  | none =>
    simp only [verifyUserByToken, hfind] at h
    simp at h
  | some u =>
    have hu_mem := List.mem_of_find?_eq_some hfind
    have hu_tok : u.verificationToken = some token := by
      have := List.find?_some hfind
      simpa using this
    have hf : ∀ a : User, User.id (if a.id == u.id then
        { a with isVerified := true, verificationToken := none } else a) = User.id a := by
      intro a; split <;> rfl
    have hcomm := findMapComm (fun v : User => if v.id == u.id then
        { v with isVerified := true, verificationToken := none } else v) User.id u.id hf db.users
    have hfu : db.users.find? (fun v => v.id == u.id) = some u := by
      apply findUnique _ _ _ hu_mem (by simp)
      intro y hy hpy
      have hyid : y.id = u.id := by simpa using hpy
      exact List.inj_on_of_nodup_map hids hy hu_mem hyid
    simp only [verifyUserByToken, hfind] at h
    have hget : getUser { db with users := db.users.map (fun v => if v.id == u.id then
        { v with isVerified := true, verificationToken := none } else v) } u.id
        = some { u with isVerified := true, verificationToken := none } := by
      simp only [getUser]
      rw [hcomm, hfu]
      simp only [Option.map_some']
      rw [if_pos (by simp)]
    rw [hget] at h
    injection h with h1 h2
    injection h1 with h1
    have hnone : db'.users.find? (fun v => v.verificationToken == some token) = none := by
      rw [← h2]
      apply List.find?_eq_none.mpr
      intro x hx
      obtain ⟨v, hv, rfl⟩ := List.mem_map.mp hx
      by_cases hid : (v.id == u.id) = true
      · rw [if_pos hid]
        simp
      · rw [if_neg hid]
        intro hvt
        have hvt' : v.verificationToken = some token := by simpa using hvt
        have : v = u := huniq v hv u hu_mem hvt' hu_tok
        rw [this] at hid
        exact hid (by simp)
    refine ⟨?_, ?_, ?_⟩
    · rw [← h1]
    · rw [← h1]
    · simp only [verifyUserByToken, hnone]

/-- C8 witness: consuming the fixture token twice — the second call fails. -/
theorem claim_C8_witness :
    (c8Db.users.map User.id).Nodup ∧
    (∀ v ∈ c8Db.users, ∀ w ∈ c8Db.users,
      v.verificationToken = some (("tok123").data) →
      w.verificationToken = some (("tok123").data) → v = w) ∧
    verifyUserByToken c8Db (("tok123").data)
      = (some { c8User with isVerified := true, verificationToken := none },
         { c8Db with users := [{ c8User with isVerified := true, verificationToken := none }] }) ∧
    ({ c8User with isVerified := true, verificationToken := none } : User).isVerified = true ∧
    ({ c8User with isVerified := true, verificationToken := none } : User).verificationToken = none ∧
    verifyUserByToken { c8Db with users := [{ c8User with isVerified := true, verificationToken := none }] }
        (("tok123").data)
      = (none, { c8Db with users := [{ c8User with isVerified := true, verificationToken := none }] }) := by
  have h := claim_C8_token_single_use c8Db (("tok123").data)
    { c8User with isVerified := true, verificationToken := none }
    { c8Db with users := [{ c8User with isVerified := true, verificationToken := none }] }
    (by decide) (by decide) (by decide)
  exact ⟨by decide, by decide, by decide, h.1, h.2.1, h.2.2⟩

/-! ### Claim C9 -/

/-- C9 counterexample: the self-targeting role change by an admin is denied
with HTTP status 400 (message `Cannot modify your own role`), not with a 403
Forbidden outcome as the claim states (403 is what the `isAdmin` gate uses for
non-admins). -/
theorem claim_C9_counterexample :
    updateUserRoleRoute c9Db (some 1) 1 (some { isModerator := some true, isAdmin := none })
      = (RouteOut.err 400 ("Cannot modify your own role").data, c9Db) ∧
    (400 : Nat) ≠ 403 :=
  ⟨by decide, by decide⟩

/-- C9 (amended): for every admin actor, a role-change or ban request whose
target id equals the actor's own id is always denied before any mutation —
with HTTP 400 (`Cannot modify your own role` / `Cannot ban yourself`), not a
403 Forbidden — and the database (hence the target user record) is returned
unchanged. -/
theorem claim_C9_amended_self_target_denied (db : DB) (adminId : Nat) (actor : User)
    (rb : RoleBody) (bb : BanBody) (now : Str)
    (hu : getUser db adminId = some actor) (hadm : actor.isAdmin = true) :
    updateUserRoleRoute db (some adminId) adminId (some rb)
      = (RouteOut.err 400 ("Cannot modify your own role").data, db) ∧
    banUserRoute db (some adminId) adminId (some bb) now
      = (RouteOut.err 400 ("Cannot ban yourself").data, db) := by
  constructor
  · simp [updateUserRoleRoute, hu, hadm]
  · simp [banUserRoute, hu, hadm]

/-- C9 witness: the fixture admin self-targeting both admin routes. -/
theorem claim_C9_witness :
    getUser c9Db 1 = some c9Admin ∧ c9Admin.isAdmin = true ∧
    (updateUserRoleRoute c9Db (some 1) 1 (some { isModerator := some true, isAdmin := none })
       = (RouteOut.err 400 ("Cannot modify your own role").data, c9Db) ∧
     banUserRoute c9Db (some 1) 1 (some { isBanned := true, banReason := some (("x").data) })
         (("2024-05-01 00:00:00").data)
       = (RouteOut.err 400 ("Cannot ban yourself").data, c9Db)) :=
  ⟨by decide, by decide,
    claim_C9_amended_self_target_denied c9Db 1 c9Admin
      { isModerator := some true, isAdmin := none }
      { isBanned := true, banReason := some (("x").data) }
      (("2024-05-01 00:00:00").data) (by decide) (by decide)⟩

end ImageShareVault
